import Mathlib

/-!
Verification development for the `user_profile_system` repository: a two-stage
pipeline (Fetch Stage, then Present Stage) composed by a sequential
orchestrator, with the two stages communicating only through a shared
session-state mapping under the single key `fetched_profile`.

The schema (`schema.py`), the mock user table and resolution policy
(`data_fetcher.py`), the rendering policy (`presenter.py`) and the sequential
composition (`agent.py`) are embedded below.  The parts of the behavior that
live in the agent framework or in the prompt text (validate-then-commit at the
producer boundary, strict stage sequencing, the rendering template) are
modelled from the specification, as marked on each definition.
-/

set_option maxRecDepth 10000

namespace UserProfileSystem

/-- Untyped structured value (parsed JSON), the input of schema validation. -/
inductive JsonVal where
  | str (s : String)
  | num (n : Int)
  | boolean (b : Bool)
  | null
  | arr (xs : List JsonVal)
  | obj (fields : List (String × JsonVal))

/-- Embeds the pydantic model `UserProfile` of `schema.py`: ten required
fields, eight scalar strings and two lists of strings. -/
structure UserProfile where
  user_id : String
  name : String
  email : String
  role : String
  department : String
  skills : List String
  projects : List String
  status : String
  joined_date : String
  last_login : String
deriving Repr, DecidableEq

/-- Field kinds appearing in the `UserProfile` schema. -/
inductive FieldKind where
  | scalar
  | strList
deriving Repr, DecidableEq

/-- The ten required fields of `UserProfile`, in declaration order
(`schema.py` lines 10-19), with their kinds. -/
def schemaFields : List (String × FieldKind) :=
  [("user_id", .scalar), ("name", .scalar), ("email", .scalar),
   ("role", .scalar), ("department", .scalar),
   ("skills", .strList), ("projects", .strList),
   ("status", .scalar), ("joined_date", .scalar), ("last_login", .scalar)]

/-- Look up a key in an object's field list (first binding wins). -/
def getField : List (String × JsonVal) → String → Option JsonVal
  | [], _ => none
  | (k', v) :: rest, k => if k' = k then some v else getField rest k

/-- Interpret a JSON value as a string, as pydantic does for a `str` field
(no coercion from other JSON types in default mode). -/
def asStr : JsonVal → Option String
  | .str s => some s
  | _ => none

/-- Interpret a list of JSON values as a list of strings. -/
def strItems : List JsonVal → Option (List String)
  | [] => some []
  | v :: vs =>
    match asStr v, strItems vs with
    | some s, some ss => some (s :: ss)
    | _, _ => none

/-- Interpret a JSON value as a `List[str]`, as pydantic does for the
`skills` and `projects` fields. -/
def asStrList : JsonVal → Option (List String)
  | .arr xs => strItems xs
  | _ => none

/-- Does the candidate object satisfy one schema field (present and of the
declared shape)? -/
def fieldOk (fs : List (String × JsonVal)) : String × FieldKind → Bool
  | (k, .scalar) => ((getField fs k).bind asStr).isSome
  | (k, .strList) => ((getField fs k).bind asStrList).isSome

/-- Names of the offending fields of a candidate object (missing or of the
wrong shape), in schema declaration order; pydantic collects all of them. -/
def errorFields (fs : List (String × JsonVal)) : List String :=
  (schemaFields.filter (fun fk => !fieldOk fs fk)).map Prod.fst

/-- Extracted value of a scalar field (total; only used when the field is
known to be present). -/
def getStrD (fs : List (String × JsonVal)) (k : String) : String :=
  ((getField fs k).bind asStr).getD ""

/-- Extracted value of a string-list field (total; only used when the field
is known to be present). -/
def getStrListD (fs : List (String × JsonVal)) (k : String) : List String :=
  ((getField fs k).bind asStrList).getD []

/-- Embeds pydantic validation of a candidate against `UserProfile`
(`UserProfile.model_validate`): a pure function returning either a
well-shaped profile or the names of the offending fields.  Extra fields
are ignored (pydantic's default `extra="ignore"`), and a non-object
candidate is rejected outright. -/
def validate (c : JsonVal) : Except (List String) UserProfile :=
  match c with
  | .obj fs =>
    if errorFields fs = [] then
      .ok { user_id := getStrD fs "user_id", name := getStrD fs "name",
            email := getStrD fs "email", role := getStrD fs "role",
            department := getStrD fs "department",
            skills := getStrListD fs "skills",
            projects := getStrListD fs "projects",
            status := getStrD fs "status",
            joined_date := getStrD fs "joined_date",
            last_login := getStrD fs "last_login" }
    else .error (errorFields fs)
  | _ => .error ["candidate"]

/-- Field list of the JSON object a profile serializes to (the shape the
producer is instructed to emit). -/
def profileFields (p : UserProfile) : List (String × JsonVal) :=
  [("user_id", .str p.user_id), ("name", .str p.name),
   ("email", .str p.email), ("role", .str p.role),
   ("department", .str p.department),
   ("skills", .arr (p.skills.map JsonVal.str)),
   ("projects", .arr (p.projects.map JsonVal.str)),
   ("status", .str p.status), ("joined_date", .str p.joined_date),
   ("last_login", .str p.last_login)]

/-- Serialize a profile back to a JSON object. -/
def profileToJson (p : UserProfile) : JsonVal :=
  .obj (profileFields p)

/-- User U001 of the mock table in `DATA_FETCHER_INSTRUCTION`. -/
def aliceProfile : UserProfile :=
  { user_id := "U001", name := "Alice Johnson",
    email := "alice.johnson@techcorp.com", role := "Senior Data Scientist",
    department := "AI Research",
    skills := ["Python", "TensorFlow", "NLP", "Deep Learning"],
    projects := ["Chatbot Enhancement", "Sentiment Analysis"],
    status := "active", joined_date := "2022-03-15",
    last_login := "2025-10-02T09:15:00Z" }

/-- User U002 of the mock table in `DATA_FETCHER_INSTRUCTION`. -/
def bobProfile : UserProfile :=
  { user_id := "U002", name := "Bob Smith",
    email := "bob.smith@techcorp.com", role := "Product Manager",
    department := "Product",
    skills := ["Agile", "Product Strategy", "User Research", "Analytics"],
    projects := ["Mobile App Redesign", "Customer Portal"],
    status := "active", joined_date := "2021-06-20",
    last_login := "2025-10-01T16:45:00Z" }

/-- User U003 of the mock table in `DATA_FETCHER_INSTRUCTION`. -/
def carolProfile : UserProfile :=
  { user_id := "U003", name := "Carol Martinez",
    email := "carol.martinez@techcorp.com", role := "DevOps Engineer",
    department := "Engineering",
    skills := ["Kubernetes", "Docker", "CI/CD", "AWS", "Terraform"],
    projects := ["Infrastructure Automation", "Cloud Migration"],
    status := "active", joined_date := "2023-01-10",
    last_login := "2025-10-02T08:30:00Z" }

/-- User U004 of the mock table in `DATA_FETCHER_INSTRUCTION`. -/
def davidProfile : UserProfile :=
  { user_id := "U004", name := "David Chen",
    email := "david.chen@techcorp.com", role := "UX Designer",
    department := "Design",
    skills := ["Figma", "User Testing", "Wireframing", "Prototyping"],
    projects := ["Design System", "Mobile App Redesign"],
    status := "inactive", joined_date := "2020-11-05",
    last_login := "2025-09-15T14:20:00Z" }

/-- The backing table of the Fetch Stage (`DATA_FETCHER_INSTRUCTION`,
users U001 to U004). -/
def userTable : List UserProfile :=
  [aliceProfile, bobProfile, carolProfile, davidProfile]

/-- Modelled from the spec: the sentinel Profile produced when no match is
found — identifier "UNKNOWN" and policy-defined defaults (empty
strings/lists) for every other field.  The instruction in
`data_fetcher.py` line 35 states the "UNKNOWN" identifier and
"appropriate default values"; the spec fixes the defaults. -/
def unknownProfile : UserProfile :=
  { user_id := "UNKNOWN", name := "", email := "", role := "",
    department := "", skills := [], projects := [], status := "",
    joined_date := "", last_login := "" }

/-- Look up a query against the backing table, matching exactly on user id
or on full name. -/
def lookupUser : List UserProfile → String → Option UserProfile
  | [], _ => none
  | u :: rest, q => if u.user_id = q ∨ u.name = q then some u else lookupUser rest q

/-- Modelled from the spec: the resolution policy of the Fetch Stage
(§4.2) — exact match on id or name against the backing table; on no
match, the "UNKNOWN" sentinel profile instead of a failure.  The lookup
itself is performed by the generation capability following
`DATA_FETCHER_INSTRUCTION`, which is not executable code under `src/`. -/
def resolve (q : String) : UserProfile :=
  (lookupUser userTable q).getD unknownProfile

/-- Session state: mapping from string keys to profile-shaped values, scoped
to one pipeline run and shared across its stages. -/
abbrev SessionState : Type := List (String × UserProfile)

/-- The single interchange key between the two stages
(`output_key="fetched_profile"` in `data_fetcher.py`). -/
def fetchedProfileKey : String := "fetched_profile"

/-- Read a key from session state (most recent binding wins). -/
def lookupKey : SessionState → String → Option UserProfile
  | [], _ => none
  | (k', v) :: rest, k => if k' = k then some v else lookupKey rest k

/-- Write a key into session state, overwriting (shadowing) any prior
binding for that key. -/
def setKey (st : SessionState) (k : String) (v : UserProfile) : SessionState :=
  (k, v) :: st

/-- Result of one stage invocation: the session-state writes it performs,
its text output, and whether the stage failed. -/
structure StageResult where
  writes : List (String × UserProfile)
  output : String
  failed : Bool

/-- Apply a stage's writes to the session state, in order. -/
def applyWrites (st : SessionState) (ws : List (String × UserProfile)) : SessionState :=
  ws.foldl (fun s kv => setKey s kv.1 kv.2) st

/-- Modelled from the spec: the Fetch Stage's validate-then-commit boundary
(§4.2, §9) realized by `output_schema=UserProfile` and
`output_key="fetched_profile"` on `data_fetcher_agent` — the raw producer
output is validated against the schema; on success exactly one write of the
validated profile to session state at the fixed key; on validation failure
the stage fails (`MalformedOutput`) and writes nothing.  The stage receives
the session state but does not read it. -/
def fetchStage (raw : JsonVal) (_st : SessionState) : StageResult :=
  match validate raw with
  | .ok p => { writes := [(fetchedProfileKey, p)], output := "", failed := false }
  | .error _ => { writes := [], output := "", failed := true }

/-- Comma-separated rendering of a list, keeping order. -/
def commaSep : List String → String
  | [] => ""
  | [x] => x
  | x :: y :: rest => x ++ (", " ++ commaSep (y :: rest))

/-- One-per-line bulleted rendering of a list, keeping order. -/
def bulletLines : List String → String
  | [] => ""
  | [x] => "- " ++ x
  | x :: y :: rest => "- " ++ (x ++ ("\n" ++ bulletLines (y :: rest)))

/-- Rendering of the skills list: a single bullet of comma-separated skills
(the template in `PRESENTER_INSTRUCTION`), or an explicit "none" bullet
when the list is empty (spec §4.3). -/
def skillsBlock : List String → String
  | [] => "- none"
  | x :: rest => "- " ++ commaSep (x :: rest)

/-- Rendering of the projects list: one bullet per project (the template in
`PRESENTER_INSTRUCTION`), or an explicit "none" bullet when empty
(spec §4.3). -/
def projectsBlock : List String → String
  | [] => "- none"
  | x :: rest => bulletLines (x :: rest)

/-- Closing offer to answer follow-up questions (`PRESENTER_INSTRUCTION`
example response). -/
def offerLine : String := "Is there anything else you would like to know about this person?"

/-- Concatenation of a list of strings. -/
def sjoin : List String → String
  | [] => ""
  | s :: rest => s ++ sjoin rest

/-- Chunks of the rendered profile summary, following the example response
format of `PRESENTER_INSTRUCTION`. -/
def renderChunks (p : UserProfile) : List String :=
  ["Here is what I found about ", p.name,
   ":\n\n**Profile Information:**\n- Name: ", p.name,
   "\n- Role: ", p.role,
   "\n- Department: ", p.department,
   "\n- Email: ", p.email,
   "\n\n**Skills:**\n", skillsBlock p.skills,
   "\n\n**Current Projects:**\n", projectsBlock p.projects,
   "\n\n**Account Details:**\n- Status: ", p.status,
   "\n- Joined: ", p.joined_date,
   "\n- Last Login: ", p.last_login,
   "\n\n"]

/-- Modelled from the spec: the rendering policy of the Present Stage
(§4.3), following the example response format of `PRESENTER_INSTRUCTION`:
a structured summary of all profile fields, bulleted skill and project
lists, ending with the follow-up offer. -/
def render (p : UserProfile) : String :=
  sjoin (renderChunks p) ++ offerLine

/-- Modelled from the spec: the holding message of Behavior B (§4.3),
per `PRESENTER_INSTRUCTION` step 3 ("politely ask the user to wait while
the data is being fetched"). -/
def holdingMessage : String :=
  "The profile data is not available yet - please wait while it is being fetched."

/-- Modelled from the spec: the Present Stage (§4.3) — reads
`fetched_profile` from session state; if present, renders the summary;
if absent, emits the holding message.  It performs no writes and never
fails. -/
def presentStage (st : SessionState) : StageResult :=
  match lookupKey st fetchedProfileKey with
  | some p => { writes := [], output := render p, failed := false }
  | none => { writes := [], output := holdingMessage, failed := false }

/-- Session state after the Fetch Stage has run and its writes were applied. -/
def stateAfterFetch (raw : JsonVal) (st0 : SessionState) : SessionState :=
  applyWrites st0 (fetchStage raw st0).writes

/-- Modelled from the spec: the Orchestrator (§4.4), `SequentialAgent` in
`agent.py` — runs the Fetch Stage to completion, applies its writes to the
shared session state, then runs the Present Stage on that state, and
forwards the Present Stage's output as the pipeline result together with
the final session state. -/
def runPipeline (raw : JsonVal) (st0 : SessionState) : String × SessionState :=
  let st1 := stateAfterFetch raw st0
  let pr := presentStage st1
  (pr.output, applyWrites st1 pr.writes)

/-- End-to-end pipeline on a user query: the producer (generation
capability) resolves the query against the backing table and emits the
profile as JSON, which then passes the validate-then-commit boundary. -/
def runPipelineQuery (q : String) (st0 : SessionState) : String × SessionState :=
  runPipeline (profileToJson (resolve q)) st0

/-- Orchestrator run states (spec §4.4). -/
inductive RunState where
  | notStarted
  | fetchRunning
  | fetchDone (success : Bool)
  | presentRunning
  | completed
deriving Repr, DecidableEq

/-- Modelled from the spec: the Orchestrator's state machine for one run
(§4.4): `NotStarted → FetchRunning → FetchDone{success|failed} →
PresentRunning → Completed`, with no retry.  A Fetch Stage failure
(`MalformedOutput`) is non-fatal to the run: the Present Stage still runs. -/
def runTrace (raw : JsonVal) (st0 : SessionState) : List RunState :=
  [.notStarted, .fetchRunning, .fetchDone (!(fetchStage raw st0).failed),
   .presentRunning, .completed]

/-- Element of a list at an index, if in bounds. -/
def nth {α : Type _} : List α → Nat → Option α
  | [], _ => none
  | x :: _, 0 => some x
  | _ :: rest, n + 1 => nth rest n

/-- The string `t` occurs verbatim (as a contiguous substring) in `s`. -/
def Occurs (s t : String) : Prop := ∃ a b, s.data = a ++ t.data ++ b

/-- The string `s` ends with the string `t`. -/
def EndsWith (s t : String) : Prop := ∃ a, s.data = a ++ t.data

/-- Boolean test that the first character list is an initial segment of the
second. -/
def listStartsWith : List Char → List Char → Bool
  | [], _ => true
  | _ :: _, [] => false
  | a :: as, b :: bs => a == b && listStartsWith as bs

/-- Boolean search for a contiguous occurrence of `t` in the second list. -/
def listOccursB (t : List Char) : List Char → Bool
  | [] => listStartsWith t []
  | c :: rest => listStartsWith t (c :: rest) || listOccursB t rest

theorem listStartsWith_iff (t s : List Char) :
    listStartsWith t s = true ↔ ∃ b, s = t ++ b := by
  induction t generalizing s with
  | nil => simp [listStartsWith]
  | cons a as ih =>
    cases s with
    | nil => simp [listStartsWith]
    | cons c cs =>
      rw [listStartsWith, Bool.and_eq_true, beq_iff_eq, ih]
      constructor
      · rintro ⟨rfl, b, rfl⟩
        exact ⟨b, rfl⟩
      · rintro ⟨b, h⟩
        injection h with h1 h2
        exact ⟨h1.symm, b, h2⟩

theorem listOccursB_iff (t s : List Char) :
    listOccursB t s = true ↔ ∃ a b, s = a ++ t ++ b := by
  induction s with
  | nil =>
    rw [listOccursB, listStartsWith_iff]
    constructor
    · rintro ⟨b, h⟩
      exact ⟨[], b, by simpa using h⟩
    · rintro ⟨a, b, h⟩
      rw [List.append_assoc] at h
      rcases List.append_eq_nil.mp h.symm with ⟨ha, hb⟩
      rcases List.append_eq_nil.mp hb with ⟨ht, hb2⟩
      exact ⟨[], by simp [ht]⟩
  | cons c cs ih =>
    rw [listOccursB, Bool.or_eq_true, listStartsWith_iff, ih]
    constructor
    · rintro (⟨b, h⟩ | ⟨a, b, h⟩)
      · exact ⟨[], b, by simpa using h⟩
      · exact ⟨c :: a, b, by simp [h]⟩
    · rintro ⟨a, b, h⟩
      cases a with
      | nil => exact Or.inl ⟨b, by simpa using h⟩
      | cons a0 as =>
        injection h with h1 h2
        exact Or.inr ⟨as, b, h2⟩

instance decOccurs (s t : String) : Decidable (Occurs s t) :=
  decidable_of_iff (listOccursB t.data s.data = true) (by
    unfold Occurs
    rw [listOccursB_iff])

theorem occurs_refl (s : String) : Occurs s s := ⟨[], [], by simp⟩

theorem occurs_append_left {s t : String} (u : String) (h : Occurs s t) :
    Occurs (s ++ u) t := by
  obtain ⟨a, b, hb⟩ := h
  exact ⟨a, b ++ u.data, by rw [String.data_append, hb]; simp⟩

theorem occurs_append_right {s t : String} (u : String) (h : Occurs s t) :
    Occurs (u ++ s) t := by
  obtain ⟨a, b, hb⟩ := h
  exact ⟨u.data ++ a, b, by rw [String.data_append, hb]; simp⟩

theorem occurs_sjoin_of_occurs_mem {m t : String} {l : List String}
    (hm : m ∈ l) (h : Occurs m t) : Occurs (sjoin l) t := by
  induction l with
  | nil => cases hm
  | cons x rest ih =>
    rcases List.mem_cons.mp hm with rfl | hm'
    · exact occurs_append_left _ h
    · exact occurs_append_right _ (ih hm')

theorem occurs_sjoin_of_mem {c : String} {l : List String} (h : c ∈ l) :
    Occurs (sjoin l) c :=
  occurs_sjoin_of_occurs_mem h (occurs_refl c)

theorem occurs_commaSep_of_mem {s : String} {l : List String} (h : s ∈ l) :
    Occurs (commaSep l) s := by
  induction l with
  | nil => cases h
  | cons x rest ih =>
    cases rest with
    | nil =>
      rcases List.mem_cons.mp h with rfl | h'
      · exact occurs_refl s
      · cases h'
    | cons y ys =>
      rcases List.mem_cons.mp h with rfl | h'
      · exact occurs_append_left _ (occurs_refl s)
      · exact occurs_append_right _ (occurs_append_right _ (ih h'))

theorem occurs_bulletLines_of_mem {s : String} {l : List String} (h : s ∈ l) :
    Occurs (bulletLines l) s := by
  induction l with
  | nil => cases h
  | cons x rest ih =>
    cases rest with
    | nil =>
      rcases List.mem_cons.mp h with rfl | h'
      · exact occurs_append_right _ (occurs_refl s)
      · cases h'
    | cons y ys =>
      rcases List.mem_cons.mp h with rfl | h'
      · exact occurs_append_right _ (occurs_append_left _ (occurs_refl s))
      · exact occurs_append_right _ (occurs_append_right _ (occurs_append_right _ (ih h')))

theorem occurs_skillsBlock_of_mem {s : String} {l : List String} (h : s ∈ l) :
    Occurs (skillsBlock l) s := by
  cases l with
  | nil => cases h
  | cons x rest => exact occurs_append_right _ (occurs_commaSep_of_mem h)

theorem occurs_projectsBlock_of_mem {s : String} {l : List String} (h : s ∈ l) :
    Occurs (projectsBlock l) s := by
  cases l with
  | nil => cases h
  | cons x rest => exact occurs_bulletLines_of_mem h

theorem occurs_render_of_mem_chunks {p : UserProfile} {c : String}
    (h : c ∈ renderChunks p) : Occurs (render p) c :=
  occurs_append_left _ (occurs_sjoin_of_mem h)

theorem occurs_render_of_occurs_chunk {p : UserProfile} {c t : String}
    (hm : c ∈ renderChunks p) (h : Occurs c t) : Occurs (render p) t :=
  occurs_append_left _ (occurs_sjoin_of_occurs_mem hm h)

theorem strItems_map_str (l : List String) :
    strItems (l.map JsonVal.str) = some l := by
  induction l with
  | nil => rfl
  | cons x xs ih => simp [strItems, asStr, ih]

theorem validate_profileToJson (p : UserProfile) :
    validate (profileToJson p) = .ok p := by
  have hsk : asStrList (.arr (p.skills.map JsonVal.str)) = some p.skills := by
    simp [asStrList, strItems_map_str]
  have hpr : asStrList (.arr (p.projects.map JsonVal.str)) = some p.projects := by
    simp [asStrList, strItems_map_str]
  simp [validate, profileToJson, profileFields, errorFields, schemaFields,
    fieldOk, getField, getStrD, getStrListD, asStr, hsk, hpr]

theorem presentStage_writes_nil (st : SessionState) :
    (presentStage st).writes = [] := by
  cases h : lookupKey st fetchedProfileKey <;> simp [presentStage, h]

theorem lookupUser_none {l : List UserProfile} {q : String}
    (h : ∀ u ∈ l, q ≠ u.user_id ∧ q ≠ u.name) : lookupUser l q = none := by
  induction l with
  | nil => rfl
  | cons u rest ih =>
    have hu := h u (by simp)
    rw [lookupUser, if_neg, ih]
    · intro x hx
      exact h x (by simp [hx])
    · rintro (h1 | h2)
      · exact hu.1 h1.symm
      · exact hu.2 h2.symm

theorem getField_none_of_keys_ne {l : List (String × JsonVal)} {k : String}
    (h : ∀ kv ∈ l, kv.1 ≠ k) : getField l k = none := by
  induction l with
  | nil => rfl
  | cons kv rest ih =>
    cases kv with
    | mk k' v =>
      rw [getField, if_neg (h (k', v) (by simp))]
      exact ih (fun x hx => h x (by simp [hx]))

theorem getField_append_keys {fs extra : List (String × JsonVal)} {k : String}
    (hk : ∀ kv ∈ extra, kv.1 ≠ k) :
    getField (fs ++ extra) k = getField fs k := by
  induction fs with
  | nil =>
    simp only [List.nil_append]
    exact getField_none_of_keys_ne hk
  | cons kv rest ih =>
    cases kv with
    | mk k' v =>
      rw [List.cons_append, getField, getField]
      by_cases h : k' = k
      · rw [if_pos h, if_pos h]
      · rw [if_neg h, if_neg h]
        exact ih

/-- Claim C1: for every pipeline run, the orchestrator's state machine never
reaches `presentRunning` before a `fetchDone` state, and no state at or
after `fetchDone` re-enters `fetchRunning` within the run (strict
sequencing, no interleaving, no automatic retry). -/
theorem fetch_completes_before_present (raw : JsonVal) (st0 : SessionState) :
    (∀ j, nth (runTrace raw st0) j = some .presentRunning →
      ∃ i, i < j ∧ ∃ b, nth (runTrace raw st0) i = some (.fetchDone b)) ∧
    (∀ i j b, i < j → nth (runTrace raw st0) i = some (.fetchDone b) →
      ¬ nth (runTrace raw st0) j = some .fetchRunning) := by
  constructor
  · intro j hj
    rcases j with _ | _ | _ | _ | _ | j
    · simp [runTrace, nth] at hj
    · simp [runTrace, nth] at hj
    · simp [runTrace, nth] at hj
    · exact ⟨2, by omega, !(fetchStage raw st0).failed, rfl⟩
    · simp [runTrace, nth] at hj
    · simp [runTrace, nth] at hj
  · intro i j b hij hi hcon
    rcases i with _ | _ | _ | _ | _ | i
    · simp [runTrace, nth] at hi
    · simp [runTrace, nth] at hi
    · rcases j with _ | _ | _ | _ | _ | j
      · omega
      · omega
      · omega
      · simp [runTrace, nth] at hcon
      · simp [runTrace, nth] at hcon
      · simp [runTrace, nth] at hcon
    · simp [runTrace, nth] at hi
    · simp [runTrace, nth] at hi
    · simp [runTrace, nth] at hi

/-- Witness for C1: on a concrete run, the `presentRunning` state at index 3
is preceded by a `fetchDone` state. -/
theorem fetch_completes_before_present_witness :
    ∃ i, i < 3 ∧ ∃ b, nth (runTrace (.str "x") []) i = some (.fetchDone b) :=
  (fetch_completes_before_present (.str "x") []).1 3 rfl

/-- Claim C2: schema validation is a pure total function returning either a
well-shaped profile or a non-empty list naming the offending fields; it
rejects any candidate missing a required field (naming that field) and any
candidate whose `skills` value is not a sequence of strings (naming
`skills`). -/
theorem validate_total_and_rejects :
    (∀ c : JsonVal,
      (∃ p, validate c = .ok p) ∨ ∃ e, validate c = .error e ∧ e ≠ []) ∧
    (∀ fs k kind, (k, kind) ∈ schemaFields → getField fs k = none →
      ∃ e, validate (.obj fs) = .error e ∧ k ∈ e) ∧
    (∀ fs v, getField fs "skills" = some v → asStrList v = none →
      ∃ e, validate (.obj fs) = .error e ∧ "skills" ∈ e) := by
  refine ⟨?_, ?_, ?_⟩
  · intro c
    rcases c with s | n | b | _ | xs | fs
    · exact Or.inr ⟨["candidate"], rfl, by simp⟩
    · exact Or.inr ⟨["candidate"], rfl, by simp⟩
    · exact Or.inr ⟨["candidate"], rfl, by simp⟩
    · exact Or.inr ⟨["candidate"], rfl, by simp⟩
    · exact Or.inr ⟨["candidate"], rfl, by simp⟩
    · by_cases h : errorFields fs = []
      · have hp :
            validate (.obj fs) =
              .ok { user_id := getStrD fs "user_id", name := getStrD fs "name",
                    email := getStrD fs "email", role := getStrD fs "role",
                    department := getStrD fs "department",
                    skills := getStrListD fs "skills",
                    projects := getStrListD fs "projects",
                    status := getStrD fs "status",
                    joined_date := getStrD fs "joined_date",
                    last_login := getStrD fs "last_login" } := by
          simp [validate, h]
        exact Or.inl ⟨_, hp⟩
      · exact Or.inr ⟨errorFields fs, by simp [validate, h], h⟩
  · intro fs k kind hmem hnone
    have hok : fieldOk fs (k, kind) = false := by
      cases kind with
      | scalar => simp [fieldOk, hnone]
      | strList => simp [fieldOk, hnone]
    have hkmem : k ∈ errorFields fs := by
      unfold errorFields
      exact List.mem_map.mpr
        ⟨(k, kind), List.mem_filter.mpr ⟨hmem, by simp [hok]⟩, rfl⟩
    exact ⟨errorFields fs, by simp [validate, List.ne_nil_of_mem hkmem], hkmem⟩
  · intro fs v hv hnil
    have hok : fieldOk fs ("skills", .strList) = false := by
      simp [fieldOk, hv, hnil]
    have hkmem : "skills" ∈ errorFields fs := by
      unfold errorFields
      exact List.mem_map.mpr
        ⟨("skills", .strList), List.mem_filter.mpr ⟨by decide, by simp [hok]⟩, rfl⟩
    exact ⟨errorFields fs, by simp [validate, List.ne_nil_of_mem hkmem], hkmem⟩

/-- Witness for C2: a candidate missing `user_id` is rejected naming
`user_id`, and a candidate whose `skills` is a plain string is rejected
naming `skills`. -/
theorem validate_total_and_rejects_witness :
    (∃ e, validate (.obj [("name", .str "Alice")]) = .error e ∧ "user_id" ∈ e) ∧
    (∃ e, validate (.obj [("skills", .str "notalist")]) = .error e ∧ "skills" ∈ e) :=
  ⟨validate_total_and_rejects.2.1 _ "user_id" .scalar (by decide) rfl,
   validate_total_and_rejects.2.2 _ (.str "notalist") rfl rfl⟩

/-- Claim C3: when the produced candidate fails schema validation, the Fetch
Stage fails (`MalformedOutput`), performs no session-state write (state is
unchanged), the Present Stage falls back to the data-absent holding message,
and the run still completes. -/
theorem malformed_output_isolated (raw : JsonVal) (st0 : SessionState)
    (e : List String) (hval : validate raw = .error e)
    (hfresh : lookupKey st0 fetchedProfileKey = none) :
    (fetchStage raw st0).failed = true ∧
    (fetchStage raw st0).writes = [] ∧
    stateAfterFetch raw st0 = st0 ∧
    (runPipeline raw st0).1 = holdingMessage ∧
    nth (runTrace raw st0) 4 = some .completed := by
  have hf : fetchStage raw st0 = { writes := [], output := "", failed := true } := by
    simp [fetchStage, hval]
  have hst : stateAfterFetch raw st0 = st0 := by
    simp [stateAfterFetch, hf, applyWrites]
  refine ⟨by simp [hf], by simp [hf], hst, ?_, rfl⟩
  simp [runPipeline, hst, presentStage, hfresh]

/-- Witness for C3: a malformed producer output (a bare string) on a fresh
session leaves state empty and yields the holding message. -/
theorem malformed_output_isolated_witness :
    (fetchStage (.str "oops") ([] : SessionState)).failed = true ∧
    (fetchStage (.str "oops") ([] : SessionState)).writes = [] ∧
    stateAfterFetch (.str "oops") ([] : SessionState) = [] ∧
    (runPipeline (.str "oops") ([] : SessionState)).1 = holdingMessage ∧
    nth (runTrace (.str "oops") ([] : SessionState)) 4 = some .completed :=
  malformed_output_isolated (.str "oops") [] ["candidate"] rfl rfl

/-- Claim C4: for every query matching no id and no name in the backing
table, the Fetch Stage produces the sentinel profile — identifier
"UNKNOWN", empty strings and empty lists for all other fields — and the
stage does not fail (no unhandled `NotFound`). -/
theorem unknown_user_sentinel (q : String) (st0 : SessionState)
    (hq : ∀ u ∈ userTable, q ≠ u.user_id ∧ q ≠ u.name) :
    resolve q = unknownProfile ∧
    (resolve q).user_id = "UNKNOWN" ∧
    (resolve q).name = "" ∧ (resolve q).email = "" ∧ (resolve q).role = "" ∧
    (resolve q).department = "" ∧ (resolve q).skills = [] ∧
    (resolve q).projects = [] ∧ (resolve q).status = "" ∧
    (resolve q).joined_date = "" ∧ (resolve q).last_login = "" ∧
    (fetchStage (profileToJson (resolve q)) st0).failed = false := by
  have hres : resolve q = unknownProfile := by
    simp [resolve, lookupUser_none hq]
  rw [hres]
  exact ⟨rfl, rfl, rfl, rfl, rfl, rfl, rfl, rfl, rfl, rfl, rfl, rfl⟩

/-- Witness for C4: the unknown id "U999" resolves to the sentinel profile
and the Fetch Stage does not fail on it. -/
theorem unknown_user_sentinel_witness :
    resolve "U999" = unknownProfile ∧
    (resolve "U999").user_id = "UNKNOWN" ∧
    (resolve "U999").name = "" ∧ (resolve "U999").email = "" ∧
    (resolve "U999").role = "" ∧ (resolve "U999").department = "" ∧
    (resolve "U999").skills = [] ∧ (resolve "U999").projects = [] ∧
    (resolve "U999").status = "" ∧ (resolve "U999").joined_date = "" ∧
    (resolve "U999").last_login = "" ∧
    (fetchStage (profileToJson (resolve "U999")) ([] : SessionState)).failed = false :=
  unknown_user_sentinel "U999" [] (by decide)

/-- Claim C5: on a successful run the Fetch Stage performs exactly one
session-state write, at the fixed key `fetched_profile`, overwriting any
prior binding of that key; every other key is left unchanged. -/
theorem fetch_single_write (raw : JsonVal) (p : UserProfile)
    (st0 : SessionState) (hok : validate raw = .ok p) :
    (fetchStage raw st0).writes = [(fetchedProfileKey, p)] ∧
    stateAfterFetch raw st0 = setKey st0 fetchedProfileKey p ∧
    lookupKey (stateAfterFetch raw st0) fetchedProfileKey = some p ∧
    ∀ k, k ≠ fetchedProfileKey →
      lookupKey (stateAfterFetch raw st0) k = lookupKey st0 k := by
  have hw : (fetchStage raw st0).writes = [(fetchedProfileKey, p)] := by
    simp [fetchStage, hok]
  have hst : stateAfterFetch raw st0 = setKey st0 fetchedProfileKey p := by
    simp [stateAfterFetch, hw, applyWrites]
  refine ⟨hw, hst, ?_, ?_⟩
  · rw [hst]
    show lookupKey ((fetchedProfileKey, p) :: st0) fetchedProfileKey = some p
    simp [lookupKey]
  · intro k hk
    rw [hst]
    show lookupKey ((fetchedProfileKey, p) :: st0) k = lookupKey st0 k
    simp only [lookupKey]
    rw [if_neg (fun h => hk h.symm)]

/-- Witness for C5: writing Carol's profile over a session that already
holds a stale `fetched_profile` and one unrelated key overwrites only the
interchange key. -/
theorem fetch_single_write_witness :
    (fetchStage (profileToJson carolProfile)
      [(fetchedProfileKey, aliceProfile), ("other", bobProfile)]).writes =
      [(fetchedProfileKey, carolProfile)] ∧
    lookupKey (stateAfterFetch (profileToJson carolProfile)
      [(fetchedProfileKey, aliceProfile), ("other", bobProfile)])
      fetchedProfileKey = some carolProfile ∧
    lookupKey (stateAfterFetch (profileToJson carolProfile)
      [(fetchedProfileKey, aliceProfile), ("other", bobProfile)]) "other" =
      lookupKey [(fetchedProfileKey, aliceProfile), ("other", bobProfile)] "other" := by
  have h := fetch_single_write (profileToJson carolProfile) carolProfile
    [(fetchedProfileKey, aliceProfile), ("other", bobProfile)]
    (validate_profileToJson carolProfile)
  exact ⟨h.1, h.2.2.1, h.2.2.2 "other" (by decide)⟩

/-- Claim C6: a session-state binding present after the Fetch Stage is
visible, unmodified, to the Present Stage — which structurally receives
exactly the post-fetch state — and survives unchanged into the final state
of the run. -/
theorem session_state_handoff (raw : JsonVal) (st0 : SessionState)
    (k : String) (v : UserProfile)
    (h : lookupKey (stateAfterFetch raw st0) k = some v) :
    (runPipeline raw st0).1 = (presentStage (stateAfterFetch raw st0)).output ∧
    (runPipeline raw st0).2 = stateAfterFetch raw st0 ∧
    lookupKey (runPipeline raw st0).2 k = some v := by
  have h2 : (runPipeline raw st0).2 = stateAfterFetch raw st0 := by
    show applyWrites (stateAfterFetch raw st0)
      (presentStage (stateAfterFetch raw st0)).writes = stateAfterFetch raw st0
    rw [presentStage_writes_nil]
    exact rfl
  exact ⟨rfl, h2, by rw [h2]; exact h⟩

/-- Witness for C6: Carol's profile written by the Fetch Stage is read back
unchanged from the run's final session state. -/
theorem session_state_handoff_witness :
    (runPipeline (profileToJson carolProfile) ([] : SessionState)).1 =
      (presentStage (stateAfterFetch (profileToJson carolProfile) [])).output ∧
    (runPipeline (profileToJson carolProfile) ([] : SessionState)).2 =
      stateAfterFetch (profileToJson carolProfile) [] ∧
    lookupKey (runPipeline (profileToJson carolProfile) ([] : SessionState)).2
      fetchedProfileKey = some carolProfile :=
  session_state_handoff (profileToJson carolProfile) [] fetchedProfileKey
    carolProfile rfl

/-- Claim C7: the Present Stage performs no session-state writes (the run's
final state is exactly the post-fetch state), its behavior depends only on
the `fetched_profile` binding (it performs no independent retrieval), and
the Fetch Stage's behavior is wholly independent of the session state, so
it can never read anything the Present Stage writes. -/
theorem presenter_readonly_fetch_independent :
    (∀ st : SessionState, (presentStage st).writes = []) ∧
    (∀ (raw : JsonVal) (st0 : SessionState),
      (runPipeline raw st0).2 = stateAfterFetch raw st0) ∧
    (∀ (raw : JsonVal) (st st' : SessionState),
      fetchStage raw st = fetchStage raw st') ∧
    (∀ st st' : SessionState,
      lookupKey st fetchedProfileKey = lookupKey st' fetchedProfileKey →
      presentStage st = presentStage st') := by
  refine ⟨presentStage_writes_nil, ?_, fun raw st st' => rfl, ?_⟩
  · intro raw st0
    show applyWrites (stateAfterFetch raw st0)
      (presentStage (stateAfterFetch raw st0)).writes = stateAfterFetch raw st0
    rw [presentStage_writes_nil]
    exact rfl
  · intro st st' h
    simp only [presentStage, h]

/-- Witness for C7: two sessions agreeing on `fetched_profile` make the
Present Stage behave identically. -/
theorem presenter_readonly_fetch_independent_witness :
    presentStage [(fetchedProfileKey, carolProfile)] =
      presentStage [(fetchedProfileKey, carolProfile), ("other", bobProfile)] :=
  presenter_readonly_fetch_independent.2.2.2
    [(fetchedProfileKey, carolProfile)]
    [(fetchedProfileKey, carolProfile), ("other", bobProfile)] rfl

/-- Claim C8: with a valid profile under `fetched_profile`, the Present
Stage renders it containing name, role, department and email verbatim,
every skill and every project verbatim in source order (the whole ordered
skills and projects blocks occur contiguously), renders empty lists as an
explicit "none" bullet, and ends with the follow-up offer; when the key is
absent it emits the fixed holding message, performs no writes, and the
holding message fabricates no profile name. -/
theorem present_render_faithful (st : SessionState) (p : UserProfile)
    (hp : lookupKey st fetchedProfileKey = some p) :
    (presentStage st).output = render p ∧
    Occurs (render p) p.name ∧
    Occurs (render p) p.role ∧
    Occurs (render p) p.department ∧
    Occurs (render p) p.email ∧
    (∀ s ∈ p.skills, Occurs (render p) s) ∧
    (∀ pr ∈ p.projects, Occurs (render p) pr) ∧
    Occurs (render p) (skillsBlock p.skills) ∧
    Occurs (render p) (projectsBlock p.projects) ∧
    (p.skills = [] → Occurs (render p) "- none") ∧
    (p.projects = [] → Occurs (render p) "- none") ∧
    EndsWith (render p) offerLine ∧
    (∀ st' : SessionState, lookupKey st' fetchedProfileKey = none →
      (presentStage st').output = holdingMessage ∧
      (presentStage st').writes = []) ∧
    (∀ u ∈ userTable, ¬ Occurs holdingMessage u.name) := by
  refine ⟨by simp [presentStage, hp],
    occurs_render_of_mem_chunks (by simp [renderChunks]),
    occurs_render_of_mem_chunks (by simp [renderChunks]),
    occurs_render_of_mem_chunks (by simp [renderChunks]),
    occurs_render_of_mem_chunks (by simp [renderChunks]),
    ?_, ?_,
    occurs_render_of_mem_chunks (by simp [renderChunks]),
    occurs_render_of_mem_chunks (by simp [renderChunks]),
    ?_, ?_, ?_, ?_, by decide⟩
  · intro s hs
    exact occurs_render_of_occurs_chunk (c := skillsBlock p.skills)
      (by simp [renderChunks]) (occurs_skillsBlock_of_mem hs)
  · intro pr hpr
    exact occurs_render_of_occurs_chunk (c := projectsBlock p.projects)
      (by simp [renderChunks]) (occurs_projectsBlock_of_mem hpr)
  · intro h
    have hb := occurs_render_of_mem_chunks
      (p := p) (c := skillsBlock p.skills) (by simp [renderChunks])
    rw [h] at hb
    exact hb
  · intro h
    have hb := occurs_render_of_mem_chunks
      (p := p) (c := projectsBlock p.projects) (by simp [renderChunks])
    rw [h] at hb
    exact hb
  · exact ⟨(sjoin (renderChunks p)).data, by simp [render, String.data_append]⟩
  · intro st' h
    exact ⟨by simp [presentStage, h], by simp [presentStage, h]⟩

/-- Witness for C8: Carol's stored profile is rendered with her name and a
skill verbatim, and an empty session yields the holding message. -/
theorem present_render_faithful_witness :
    (presentStage [(fetchedProfileKey, carolProfile)]).output =
      render carolProfile ∧
    Occurs (render carolProfile) carolProfile.name ∧
    Occurs (render carolProfile) "Kubernetes" ∧
    (presentStage ([] : SessionState)).output = holdingMessage := by
  have h := present_render_faithful [(fetchedProfileKey, carolProfile)]
    carolProfile rfl
  obtain ⟨h1, h2, -, -, -, hsk, -, -, -, -, -, -, habs, -⟩ := h
  exact ⟨h1, h2, hsk "Kubernetes" (by decide), (habs [] rfl).1⟩

/-- Counterexample for C9: the backing table lists five skills for U003
(Kubernetes, Docker, CI/CD, AWS, Terraform), not four as the claim states. -/
theorem u003_skill_count_counterexample :
    (resolve "U003").skills.length = 5 ∧
    ¬ ((resolve "U003").skills.length = 4) := by decide

/-- Claim C9 (amended): invoking the pipeline with "U003" yields a response
containing "Carol Martinez", "DevOps Engineer" and all five listed skills
verbatim; invoking it with the unknown id "U999" yields exactly the
rendering of the "UNKNOWN" sentinel profile, whose role and department are
empty, with no fabricated department or role text in the response. -/
theorem pipeline_end_to_end :
    Occurs (runPipelineQuery "U003" []).1 "Carol Martinez" ∧
    Occurs (runPipelineQuery "U003" []).1 "DevOps Engineer" ∧
    Occurs (runPipelineQuery "U003" []).1 "Kubernetes" ∧
    Occurs (runPipelineQuery "U003" []).1 "Docker" ∧
    Occurs (runPipelineQuery "U003" []).1 "CI/CD" ∧
    Occurs (runPipelineQuery "U003" []).1 "AWS" ∧
    Occurs (runPipelineQuery "U003" []).1 "Terraform" ∧
    (runPipelineQuery "U999" []).1 = render unknownProfile ∧
    (resolve "U999").user_id = "UNKNOWN" ∧
    (resolve "U999").role = "" ∧
    (resolve "U999").department = "" ∧
    ¬ Occurs (runPipelineQuery "U999" []).1 "DevOps" ∧
    ¬ Occurs (runPipelineQuery "U999" []).1 "Engineering" := by decide

/-- Claim C10: validation ignores fields outside the schema — appending
unknown-key fields to any candidate object leaves the validation result
unchanged, and a complete well-typed candidate carrying extra unknown
fields is accepted, the extra fields silently dropped from the resulting
profile. -/
theorem validate_ignores_extra_fields (extra : List (String × JsonVal))
    (hextra : ∀ kv ∈ extra, kv.1 ∉ schemaFields.map Prod.fst) :
    (∀ fs, validate (.obj (fs ++ extra)) = validate (.obj fs)) ∧
    (∀ p : UserProfile, validate (.obj (profileFields p ++ extra)) = .ok p) := by
  have hmain : ∀ fs, validate (.obj (fs ++ extra)) = validate (.obj fs) := by
    intro fs
    have hg : ∀ k, k ∈ schemaFields.map Prod.fst →
        getField (fs ++ extra) k = getField fs k := by
      intro k hkmem
      apply getField_append_keys
      intro kv hkv hEq
      exact hextra kv hkv (hEq ▸ hkmem)
    have hfield : ∀ fk ∈ schemaFields, fieldOk (fs ++ extra) fk = fieldOk fs fk := by
      intro fk hfk
      cases fk with
      | mk k kind =>
        have hk : k ∈ schemaFields.map Prod.fst :=
          List.mem_map.mpr ⟨(k, kind), hfk, rfl⟩
        cases kind <;> simp [fieldOk, hg k hk]
    have herr : errorFields (fs ++ extra) = errorFields fs := by
      unfold errorFields
      congr 1
      apply List.filter_congr
      intro fk hfk
      rw [hfield fk hfk]
    have h1 := hg "user_id" (by decide)
    have h2 := hg "name" (by decide)
    have h3 := hg "email" (by decide)
    have h4 := hg "role" (by decide)
    have h5 := hg "department" (by decide)
    have h6 := hg "skills" (by decide)
    have h7 := hg "projects" (by decide)
    have h8 := hg "status" (by decide)
    have h9 := hg "joined_date" (by decide)
    have h10 := hg "last_login" (by decide)
    simp [validate, herr, getStrD, getStrListD,
      h1, h2, h3, h4, h5, h6, h7, h8, h9, h10]
  exact ⟨hmain, fun p => (hmain (profileFields p)).trans (validate_profileToJson p)⟩

/-- Witness for C10: Alice's complete candidate extended with an unknown
`nickname` field validates to exactly Alice's profile. -/
theorem validate_ignores_extra_fields_witness :
    validate (.obj (profileFields aliceProfile ++ [("nickname", .str "Al")])) =
      .ok aliceProfile :=
  (validate_ignores_extra_fields [("nickname", .str "Al")] (by decide)).2
    aliceProfile

end UserProfileSystem
